import Mathlib

set_option maxRecDepth 40000

/-!
Verification development for the Bluetti BLE Modbus core
(bluetti_standalone.py, bluetti_lib/client.py, domoticz_bluetti_wrapper.py).

Bytes are modelled as natural numbers below 256, byte strings as `List Nat`,
and Python float division by 10 / 100 is modelled exactly over `ℚ`.
Transport behaviour (BLE I/O, the asyncio scheduler, exceptions raised by
collaborators) is modelled by explicit outcome parameters; timing is modelled
in discrete time units.
-/

/-- One bit round of the reflected CRC-16/MODBUS computation: shift right,
conditionally XOR-ing the reflected polynomial 0xA001. This embeds the
algorithm behind the crcmod predefined modbus function used at
bluetti_standalone.py line 17. -/
def crcRound (crc : Nat) : Nat :=
  if crc % 2 = 1 then (crc / 2) ^^^ 0xA001 else crc / 2

/-- Feed one byte into the CRC state: XOR the byte into the low bits, then
run eight bit rounds. -/
def crcByteStep (crc b : Nat) : Nat :=
  crcRound^[8] (crc ^^^ b)

/-- CRC-16/MODBUS of a byte string: initial value 0xFFFF, no final XOR.
Embeds the crc function obtained from crcmod.predefined.mkCrcFun at
bluetti_standalone.py line 17. -/
def modbus_crc (data : List Nat) : Nat :=
  data.foldl crcByteStep 0xFFFF

/-- Little-endian two-byte rendering of a 16-bit CRC value, as produced by
struct.pack_into with a little-endian u16 format (bluetti_standalone.py
line 57) and by int.to_bytes with byteorder little (line 74). -/
def crcLE (crc : Nat) : List Nat :=
  [crc % 256, crc / 256 % 256]

/-- Big-endian two-byte rendering of a 16-bit value, as produced by
struct.pack with a big-endian u16 format (bluetti_standalone.py
lines 83 and 94). -/
def be16 (n : Nat) : List Nat :=
  [n / 256 % 256, n % 256]

/-- The two Modbus command shapes built in bluetti_standalone.py:
ReadHoldingRegisters (lines 77-86) and WriteSingleRegister (lines 88-97). -/
inductive Command
  | read (starting_address quantity : Nat)
  | write (address value : Nat)
deriving DecidableEq

/-- Function code of a command: 3 for a read, 6 for a write
(bluetti_standalone.py lines 83 and 94). -/
def Command.function_code : Command → Nat
  | .read _ _ => 3
  | .write _ _ => 6

/-- The four data bytes of a command: two big-endian u16 values
(bluetti_standalone.py lines 83 and 94). -/
def Command.data : Command → List Nat
  | .read a q => be16 a ++ be16 q
  | .write a v => be16 a ++ be16 v

/-- The frame bytes before the CRC field: station address 1, function code,
data (ModbusCommand constructor, bluetti_standalone.py lines 51-56). -/
def Command.frameBase (c : Command) : List Nat :=
  1 :: c.function_code :: c.data

/-- ModbusCommand.encode (bluetti_standalone.py lines 51-61): the frame base
followed by the little-endian CRC-16/MODBUS over the frame base. -/
def Command.encode (c : Command) : List Nat :=
  c.frameBase ++ crcLE (modbus_crc c.frameBase)

/-- ModbusCommand.parse_response (bluetti_standalone.py lines 63-67):
empty for inputs shorter than 3 bytes, otherwise the Python slice from
index 3 to index length minus 2, i.e. take (length - 2) then drop 3. -/
def parse_response (r : List Nat) : List Nat :=
  if r.length < 3 then [] else (r.take (r.length - 2)).drop 3

/-- ModbusCommand.is_valid_response (bluetti_standalone.py lines 69-75):
false for inputs shorter than 3 bytes, otherwise compares the trailing two
bytes with the little-endian CRC over the rest. -/
def is_valid_response (r : List Nat) : Bool :=
  if r.length < 3 then false
  else r.drop (r.length - 2) == crcLE (modbus_crc (r.take (r.length - 2)))

/-- Modelled from the spec: response_size comes from DeviceCommand in
bluetti_lib/commands.py, which is not in the sources; spec section 4.1 gives
3 + 2 * quantity + 2 for a read and the 9-byte echoed frame for a write. -/
def Command.response_size : Command → Nat
  | .read _ q => 3 + 2 * q + 2
  | .write _ _ => 9

/-- helper: starting address of a command, used by the poll loop to select a
decode table (bluetti_standalone.py lines 212 and 232). -/
def Command.starting_address : Command → Nat
  | .read a _ => a
  | .write a _ => a

/-- C5: encode of ReadHoldingRegisters(10, 40) is exactly the six bytes
01 03 00 0A 00 28 followed by the little-endian CRC-16/MODBUS of those six
bytes (concretely 65 D6); in general every encoded command is the station
address 1, the function code, a big-endian u16 pair, and the little-endian
CRC over all preceding bytes. -/
theorem C5_encode_frame :
    (Command.encode (Command.read 10 40) = [1, 3, 0, 10, 0, 40, 101, 214]) ∧
    ([101, 214] = crcLE (modbus_crc [1, 3, 0, 10, 0, 40])) ∧
    (∀ a q : Nat, a < 65536 → q < 65536 →
      Command.encode (Command.read a q) =
        (1 :: 3 :: [a / 256, a % 256, q / 256, q % 256]) ++
          crcLE (modbus_crc (1 :: 3 :: [a / 256, a % 256, q / 256, q % 256]))) ∧
    (∀ a v : Nat, a < 65536 → v < 65536 →
      Command.encode (Command.write a v) =
        (1 :: 6 :: [a / 256, a % 256, v / 256, v % 256]) ++
          crcLE (modbus_crc (1 :: 6 :: [a / 256, a % 256, v / 256, v % 256]))) := by
  refine ⟨by decide, by decide, ?_, ?_⟩ <;>
  · intro a q ha hq
    have ha2 : a / 256 % 256 = a / 256 :=
      Nat.mod_eq_of_lt (Nat.div_lt_of_lt_mul (by omega))
    have hq2 : q / 256 % 256 = q / 256 :=
      Nat.mod_eq_of_lt (Nat.div_lt_of_lt_mul (by omega))
    simp [Command.encode, Command.frameBase, Command.function_code,
      Command.data, be16, ha2, hq2]

/-- C5 witness: the general frame shape evaluated at the control-data read
command ReadHoldingRegisters(3001, 61) used by the poll loop. -/
theorem C5_encode_frame_witness :
    Command.encode (Command.read 3001 61) =
      (1 :: 3 :: [3001 / 256, 3001 % 256, 61 / 256, 61 % 256]) ++
        crcLE (modbus_crc
          (1 :: 3 :: [3001 / 256, 3001 % 256, 61 / 256, 61 % 256])) :=
  C5_encode_frame.2.2.1 3001 61 (by decide) (by decide)

/-- C9: parse_response is total and purely structural: it returns empty bytes
for every input shorter than 3 bytes, returns empty bytes for every input of
length at most 5, otherwise returns the slice between index 3 and length
minus 2, and its result never depends on the two trailing CRC bytes, so it
performs no CRC validation of its input. -/
theorem C9_parse_response_total :
    (∀ r : List Nat, r.length < 3 → parse_response r = []) ∧
    (∀ r : List Nat, r.length ≤ 5 → parse_response r = []) ∧
    (∀ r : List Nat, 3 ≤ r.length →
      parse_response r = (r.drop 3).take (r.length - 5)) ∧
    (∀ p c₁ c₂ : List Nat, c₁.length = 2 → c₂.length = 2 →
      parse_response (p ++ c₁) = parse_response (p ++ c₂)) := by
  have hslice : ∀ r : List Nat, 3 ≤ r.length →
      parse_response r = (r.drop 3).take (r.length - 5) := by
    intro r hr
    unfold parse_response
    rw [if_neg (by omega), List.drop_take]
    congr 1
  refine ⟨?_, ?_, hslice, ?_⟩
  · intro r hr
    unfold parse_response
    rw [if_pos hr]
  · intro r hr
    by_cases h3 : r.length < 3
    · unfold parse_response
      rw [if_pos h3]
    · rw [hslice r (by omega)]
      have hz : r.length - 5 = 0 := by omega
      rw [hz, List.take_zero]
  · intro p c₁ c₂ hc₁ hc₂
    have key : ∀ c : List Nat, c.length = 2 →
        parse_response (p ++ c) = p.drop 3 := by
      intro c hc
      by_cases hp : p.length < 1
      · have hpnil : p = [] := by
          cases p with
          | nil => rfl
          | cons x xs => simp at hp
        subst hpnil
        unfold parse_response
        rw [if_pos (by simp [hc])]
        simp
      · have hlen : (p ++ c).length = p.length + 2 := by
          simp [List.length_append, hc]
        have htake : (p ++ c).length - 2 = p.length := by omega
        unfold parse_response
        rw [if_neg (by omega), htake,
          List.take_append_of_le_length (le_refl _), List.take_length]
    rw [key c₁ hc₁, key c₂ hc₂]

/-- C9 witness: the three behaviours evaluated on concrete inputs, and CRC
independence evaluated on a concrete frame body with two different trailers. -/
theorem C9_parse_response_total_witness :
    parse_response [1, 3] = [] ∧
    parse_response [1, 3, 2, 9, 8] = [] ∧
    parse_response [1, 3, 2, 9, 8, 7, 6] =
      (([1, 3, 2, 9, 8, 7, 6] : List Nat).drop 3).take 2 ∧
    parse_response ([1, 3, 2, 9] ++ [0, 0]) =
      parse_response ([1, 3, 2, 9] ++ [255, 255]) :=
  ⟨C9_parse_response_total.1 [1, 3] (by decide),
   C9_parse_response_total.2.1 [1, 3, 2, 9, 8] (by decide),
   C9_parse_response_total.2.2.1 [1, 3, 2, 9, 8, 7, 6] (by decide),
   C9_parse_response_total.2.2.2 [1, 3, 2, 9] [0, 0] [255, 255]
     (by decide) (by decide)⟩

/-- Terminal result of one transaction of the accumulate-and-decode engine
(BluettiClient._perform, bluetti_lib/client.py lines 51-67): a decoded
payload, the invalid-response outcome (None after a failed CRC check), or
the timeout outcome (None after asyncio.wait_for raises). -/
inductive PerformResult
  | payload (p : List Nat)
  | invalid
  | timeout
deriving DecidableEq

/-- The accumulation loop of BluettiClient._perform (bluetti_lib/client.py
lines 54-67) in discrete time. A chunk schedule lists, in order, each
notification as the pair of the time elapsed since the previous event and
the chunk bytes. Each iteration waits up to the timeout for the next chunk;
a gap reaching the timeout, or exhaustion of the schedule, makes
asyncio.wait_for raise and the loop return the timeout result; otherwise the
chunk is appended and, once the buffer has reached the expected response
size, the buffer is CRC-checked and decoded. Returns the completion instant
and the result. -/
def performLoop (c : Command) (t : Nat) :
    List (Nat × List Nat) → List Nat → Nat → Nat × PerformResult
  | [], _, now => (now + t, PerformResult.timeout)
  | (gap, d) :: rest, buf, now =>
    if t ≤ gap then (now + t, PerformResult.timeout)
    else if c.response_size ≤ (buf ++ d).length then
      (now + gap,
        if is_valid_response (buf ++ d) then
          PerformResult.payload (parse_response (buf ++ d))
        else PerformResult.invalid)
    else performLoop c t rest (buf ++ d) (now + gap)

/-- BluettiClient._perform run from an empty buffer at instant 0 against the
given arrival schedule. -/
def runPerform (c : Command) (t : Nat) (chunks : List (Nat × List Nat)) :
    Nat × PerformResult :=
  performLoop c t chunks [] 0

/-- Total number of bytes across a chunk schedule. -/
def chunksBytes (chunks : List (Nat × List Nat)) : Nat :=
  (chunks.map (fun p => p.2.length)).sum

/-- Total of the inter-chunk gaps of a chunk schedule. -/
def chunksGaps (chunks : List (Nat × List Nat)) : Nat :=
  (chunks.map (fun p => p.1)).sum

/-- helper: whenever fewer than the expected number of bytes are scheduled,
the accumulation loop ends with the timeout result, no later than the sum of
the gaps plus one further timeout period. -/
theorem performLoop_timeout_bound (c : Command) (t : Nat) :
    ∀ (chunks : List (Nat × List Nat)) (buf : List Nat) (now : Nat),
      buf.length + chunksBytes chunks < c.response_size →
      (performLoop c t chunks buf now).2 = PerformResult.timeout ∧
      (performLoop c t chunks buf now).1 ≤ now + chunksGaps chunks + t := by
  intro chunks
  induction chunks with
  | nil =>
    intro buf now h
    exact ⟨rfl, by simp [performLoop, chunksGaps]⟩
  | cons hd rest ih =>
    intro buf now h
    obtain ⟨gap, d⟩ := hd
    simp only [performLoop]
    by_cases hg : t ≤ gap
    · rw [if_pos hg]
      refine ⟨rfl, ?_⟩
      have hgaps : chunksGaps ((gap, d) :: rest) = gap + chunksGaps rest := by
        simp [chunksGaps]
      rw [hgaps]
      show now + t ≤ now + (gap + chunksGaps rest) + t
      omega
    · rw [if_neg hg]
      have hbytes : chunksBytes ((gap, d) :: rest) =
          d.length + chunksBytes rest := by
        simp [chunksBytes]
      have hlen : (buf ++ d).length + chunksBytes rest < c.response_size := by
        rw [List.length_append]
        omega
      rw [if_neg (by omega)]
      obtain ⟨h1, h2⟩ := ih (buf ++ d) (now + gap) hlen
      refine ⟨h1, ?_⟩
      have hgaps : chunksGaps ((gap, d) :: rest) = gap + chunksGaps rest := by
        simp [chunksGaps]
      omega

/-- C2 (amended): the timeout argument of BluettiClient._perform bounds each
single wait for the next notification chunk, not the whole accumulation.
Whenever fewer than the expected number of response bytes arrive in total,
the engine returns the timeout result, and it completes no later than the
sum of the inter-chunk gaps plus one further timeout period; the total
accumulation time is therefore not bounded by the timeout alone. -/
theorem C2_per_chunk_timeout (c : Command) (t : Nat)
    (chunks : List (Nat × List Nat))
    (h : chunksBytes chunks < c.response_size) :
    (runPerform c t chunks).2 = PerformResult.timeout ∧
    (runPerform c t chunks).1 ≤ chunksGaps chunks + t := by
  have hb : ([] : List Nat).length + chunksBytes chunks < c.response_size := by
    simpa using h
  have := performLoop_timeout_bound c t chunks [] 0 hb
  simpa [runPerform] using this

/-- C2 witness: a read expecting 7 response bytes with a single 1-byte chunk
arriving 9 units after the write, under a 10-unit timeout. -/
theorem C2_per_chunk_timeout_witness :
    (runPerform (Command.read 10 1) 10 [(9, [0])]).2 = PerformResult.timeout ∧
    (runPerform (Command.read 10 1) 10 [(9, [0])]).1 ≤
      chunksGaps [(9, [0])] + 10 :=
  C2_per_chunk_timeout (Command.read 10 1) 10 [(9, [0])] (by decide)

/-- C2 counterexample: with timeout 10 and three 1-byte chunks each arriving
9 units after the previous one, a read expecting 7 bytes returns the timeout
result only at instant 37, long after the claimed bound of one timeout
period (the deadline 10) after the start: each partial chunk restarts the
deadline, so the accumulation time grows with the number of chunks. -/
theorem C2_counterexample :
    runPerform (Command.read 10 1) 10 [(9, [0]), (9, [0]), (9, [0])] =
      (37, PerformResult.timeout) ∧ ¬ (37 ≤ 10) :=
  ⟨by decide, by decide⟩

/-- The concatenation of the bytes of the first k chunks of an arrival
schedule: the buffer the accumulation loop holds after consuming k chunks. -/
def chunkBytesPrefix (chunks : List (Nat × List Nat)) (k : Nat) : List Nat :=
  ((chunks.take k).map (fun x => x.2)).flatten

/-- helper: the first-k-chunks buffer of an empty schedule is empty. -/
theorem chunkBytesPrefix_zero (chunks : List (Nat × List Nat)) :
    chunkBytesPrefix chunks 0 = [] := rfl

/-- helper: the first-k-chunks buffer of a cons schedule starts with the
head chunk. -/
theorem chunkBytesPrefix_cons (g : Nat) (d : List Nat)
    (rest : List (Nat × List Nat)) (m : Nat) :
    chunkBytesPrefix ((g, d) :: rest) (m + 1) =
      d ++ chunkBytesPrefix rest m := by
  simp [chunkBytesPrefix]

/-- helper: a payload produced by the accumulation loop comes from the exact
buffer the loop accumulated - the initial buffer followed by the bytes of
the first k consumed chunks, where k marks the first time the buffer reaches
the expected response size - and that very buffer passed the CRC check of
is_valid_response, the payload being its parse_response. -/
theorem performLoop_payload_validated (c : Command) (t : Nat) :
    ∀ (chunks : List (Nat × List Nat)) (buf : List Nat) (now : Nat)
      (p : List Nat),
      (performLoop c t chunks buf now).2 = PerformResult.payload p →
      buf.length < c.response_size →
      ∃ k, 1 ≤ k ∧ k ≤ chunks.length ∧
        c.response_size ≤ (buf ++ chunkBytesPrefix chunks k).length ∧
        (buf ++ chunkBytesPrefix chunks (k - 1)).length < c.response_size ∧
        is_valid_response (buf ++ chunkBytesPrefix chunks k) = true ∧
        p = parse_response (buf ++ chunkBytesPrefix chunks k) := by
  intro chunks
  induction chunks with
  | nil =>
    intro buf now p h hb
    simp [performLoop] at h
  | cons hd rest ih =>
    intro buf now p h hb
    obtain ⟨gap, d⟩ := hd
    simp only [performLoop] at h
    by_cases hg : t ≤ gap
    · rw [if_pos hg] at h
      simp at h
    · rw [if_neg hg] at h
      by_cases hsz : c.response_size ≤ (buf ++ d).length
      · rw [if_pos hsz] at h
        cases hv : is_valid_response (buf ++ d) with
        | true =>
          rw [hv] at h
          simp at h
          refine ⟨1, le_refl 1, by simp, ?_, ?_, ?_, ?_⟩
          · rw [chunkBytesPrefix_cons, chunkBytesPrefix_zero]
            simpa using hsz
          · rw [chunkBytesPrefix_zero]
            simpa using hb
          · rw [chunkBytesPrefix_cons, chunkBytesPrefix_zero]
            simpa using hv
          · rw [chunkBytesPrefix_cons, chunkBytesPrefix_zero]
            simpa using h.symm
        | false =>
          rw [hv] at h
          simp at h
      · rw [if_neg hsz] at h
        obtain ⟨k, hk1, hk2, hk3, hk4, hk5, hk6⟩ :=
          ih (buf ++ d) (now + gap) p h (by omega)
        obtain ⟨m, rfl⟩ : ∃ m, k = m + 1 := ⟨k - 1, by omega⟩
        refine ⟨m + 2, by omega, by simpa using hk2, ?_, ?_, ?_, ?_⟩
        · rw [chunkBytesPrefix_cons, ← List.append_assoc]
          exact hk3
        · show (buf ++ chunkBytesPrefix ((gap, d) :: rest) (m + 1)).length <
            c.response_size
          rw [chunkBytesPrefix_cons, ← List.append_assoc]
          simpa using hk4
        · rw [chunkBytesPrefix_cons, ← List.append_assoc]
          exact hk5
        · rw [chunkBytesPrefix_cons, ← List.append_assoc]
          exact hk6

/-- A concrete valid 7-byte response frame to ReadHoldingRegisters(10, 1):
header 01 03 02, register value 77, correct little-endian CRC 78 71. -/
def validReadResp : List Nat := [1, 3, 2, 0, 77, 120, 113]

/-- A response frame with the same body as validReadResp but a corrupted
trailing CRC field. -/
def corruptReadResp : List Nat := [1, 3, 2, 0, 77, 0, 0]

/-- C1 (amended, engine part): in the accumulate-and-decode engine a decoded
payload is parse_response of the exact buffer the engine accumulated - the
concatenation of the first k delivered notification chunks, where k marks
the first time the buffer reaches the expected response size - and that
very buffer was confirmed by is_valid_response before being parsed; the
engine never decodes raw response bytes into a payload without the CRC
check succeeding on them. -/
theorem C1_engine_validates_before_parse (c : Command) (t : Nat)
    (chunks : List (Nat × List Nat)) (p : List Nat)
    (h : (runPerform c t chunks).2 = PerformResult.payload p) :
    ∃ k, 1 ≤ k ∧ k ≤ chunks.length ∧
      c.response_size ≤ (chunkBytesPrefix chunks k).length ∧
      (chunkBytesPrefix chunks (k - 1)).length < c.response_size ∧
      is_valid_response (chunkBytesPrefix chunks k) = true ∧
      p = parse_response (chunkBytesPrefix chunks k) := by
  have h5 : 5 ≤ c.response_size := by
    cases c <;> simp [Command.response_size]
  have := performLoop_payload_validated c t chunks [] 0 p h
    (by simp only [List.length_nil]; omega)
  simpa using this

/-- C1 witness: the engine run on the valid frame delivered at once decodes
the payload of the CRC-validated one-chunk buffer. -/
theorem C1_engine_validates_before_parse_witness :
    ∃ k, 1 ≤ k ∧ k ≤ ([(0, validReadResp)] : List (Nat × List Nat)).length ∧
      (Command.read 10 1).response_size ≤
        (chunkBytesPrefix [(0, validReadResp)] k).length ∧
      (chunkBytesPrefix [(0, validReadResp)] (k - 1)).length <
        (Command.read 10 1).response_size ∧
      is_valid_response (chunkBytesPrefix [(0, validReadResp)] k) = true ∧
      ([0, 77] : List Nat) =
        parse_response (chunkBytesPrefix [(0, validReadResp)] k) :=
  C1_engine_validates_before_parse (Command.read 10 1) 10
    [(0, validReadResp)] [0, 77] (by decide)

/-- The standalone notification handler (bluetti_standalone.py
lines 165-168) stores each notification by overwriting _response_data and
setting the event; when the waiter inside perform_command resumes after the
chunks have been delivered it reads the most recent chunk, so the value it
observes is the last chunk of the schedule, and None when no chunk arrives
before the 10 second wait times out (lines 184-190). -/
def standaloneNotifyResult (chunks : List (List Nat)) : Option (List Nat) :=
  chunks.foldl (fun _ d => some d) none

/-- Python truthiness of an optional byte string: present and non-empty. -/
def truthy : Option (List Nat) → Bool
  | none => false
  | some r => !r.isEmpty

/-- The payload decoded by the standalone poll loop for one command
(bluetti_standalone.py lines 208-211 and 226-231): the raw perform_command
result is checked for truthiness and fed directly to parse_response; no call
to is_valid_response occurs anywhere on this path. Returns the payload used
for field parsing, empty when the command is skipped. -/
def standalonePayloadOf (response : Option (List Nat)) : List Nat :=
  match response with
  | none => []
  | some r => if r.isEmpty then [] else parse_response r

/-- C1 counterexample: the standalone engine parses raw response bytes as a
payload although their trailing CRC16 never validated: the corrupted frame
01 03 02 00 4D 00 00 fails is_valid_response, yet the standalone poll path
extracts and uses the payload 00 4D from it. -/
theorem C1_counterexample :
    is_valid_response corruptReadResp = false ∧
    standalonePayloadOf (some corruptReadResp) = [0, 77] ∧
    ([0, 77] : List Nat) ≠ [] :=
  ⟨by decide, by decide, by decide⟩

/-- Result of a blocking facade call as observed by the calling thread:
a normal return, a raised exception, or a permanent block on the session
lock (the lock of threading.Lock is not reentrant, so re-acquiring it from
the thread that holds it blocks forever). -/
inductive SyncCall (α : Type)
  | returns (a : α)
  | raises
  | deadlock
deriving DecidableEq

/-- Thread-visible state of the BluettiClient facade (bluetti_lib/client.py
lines 11-23): the is_connected flag, whether the background loop and runner
thread exist, and whether the session lock is currently held. -/
structure ClientState where
  is_connected : Bool
  hasLoop : Bool
  lockHeld : Bool
deriving DecidableEq

/-- BluettiClient.disconnect (bluetti_lib/client.py lines 82-92): acquires
the session lock first (blocking forever when the calling thread already
holds it), then is a no-op unless connected with a live loop, and otherwise
tears the session down, clearing is_connected, the loop and the runner. -/
def BluettiClient.disconnect (st : ClientState) : SyncCall Unit × ClientState :=
  if st.lockHeld then (SyncCall.deadlock, st)
  else if !st.is_connected || !st.hasLoop then (SyncCall.returns (), st)
  else (SyncCall.returns (), ClientState.mk false false false)

/-- Outcome of the in-flight background transaction as observed by
future.result inside perform (bluetti_lib/client.py lines 100-108):
a payload from _perform, None from _perform (failed CRC check or engine
timeout), the caller-side TimeoutError of future.result, or any other
exception. -/
inductive TransactionOutcome
  | ok (p : List Nat)
  | engineNone
  | callerTimeout
  | unexpectedError
deriving DecidableEq

/-- BluettiClient.perform (bluetti_lib/client.py lines 94-109): acquires the
session lock, fails fast with None when not connected or without a loop,
otherwise submits the transaction and blocks on future.result; a payload or
None is returned as is, a caller timeout collapses to None, and any other
exception triggers self.disconnect() - invoked while the session lock is
still held - before returning None. Returns the call result, the state, and
the list of frames written to the transport. -/
def BluettiClient.perform (st : ClientState) (c : Command)
    (outcome : TransactionOutcome) :
    SyncCall (Option (List Nat)) × ClientState × List (List Nat) :=
  if st.lockHeld then (SyncCall.deadlock, st, [])
  else if !st.is_connected || !st.hasLoop then (SyncCall.returns none, st, [])
  else
    match outcome with
    | TransactionOutcome.ok p => (SyncCall.returns (some p), st, [c.encode])
    | TransactionOutcome.engineNone => (SyncCall.returns none, st, [c.encode])
    | TransactionOutcome.callerTimeout =>
      (SyncCall.returns none, st, [c.encode])
    | TransactionOutcome.unexpectedError =>
      match BluettiClient.disconnect
          (ClientState.mk st.is_connected st.hasLoop true) with
      | (SyncCall.deadlock, st2) => (SyncCall.deadlock, st2, [c.encode])
      | (_, st2) =>
        (SyncCall.returns none,
          ClientState.mk st2.is_connected st2.hasLoop false, [c.encode])

/-- Outcome of one underlying connection attempt as observed by the caller
of a blocking connect. -/
inductive ConnectAttempt
  | success
  | failsInWorker
  | exceedsCallerWait
  | raisesOther
deriving DecidableEq

/-- BluettiClient.connect (bluetti_lib/client.py lines 69-80): returns true
at once when already connected; otherwise starts a fresh loop and runner
thread and blocks on future.result over _connect. _connect catches
BleakError and TimeoutError itself and clears is_connected (failsInWorker);
but future.result exceeding the caller timeout (exceedsCallerWait), or an
exception type _connect does not catch (raisesOther), propagates out of
connect uncaught. -/
def BluettiClient.connect (st : ClientState) (a : ConnectAttempt) :
    SyncCall Bool × ClientState :=
  if st.lockHeld then (SyncCall.deadlock, st)
  else if st.is_connected then (SyncCall.returns true, st)
  else
    match a with
    | ConnectAttempt.success =>
      (SyncCall.returns true, ClientState.mk true true false)
    | ConnectAttempt.failsInWorker =>
      (SyncCall.returns false, ClientState.mk false true false)
    | ConnectAttempt.exceedsCallerWait =>
      (SyncCall.raises, ClientState.mk false true false)
    | ConnectAttempt.raisesOther =>
      (SyncCall.raises, ClientState.mk false true false)

/-- State of the SyncBluettiClient wrapper (bluetti_standalone.py
lines 370-379): whether the loop exists and the connected flag. -/
structure SyncClientState where
  hasLoop : Bool
  connected : Bool
deriving DecidableEq

/-- SyncBluettiClient.connect (bluetti_standalone.py lines 397-413): returns
false without touching anything when no loop exists; otherwise blocks on
future.result over the inner connect, which itself catches every exception
and returns false; the surrounding try/except Exception also collapses a
future.result timeout or any other exception to a false return, leaving the
connected flag unchanged in that branch. -/
def SyncBluettiClient.connect (st : SyncClientState) (a : ConnectAttempt) :
    Bool × SyncClientState :=
  if !st.hasLoop then (false, st)
  else
    match a with
    | ConnectAttempt.success => (true, SyncClientState.mk st.hasLoop true)
    | ConnectAttempt.failsInWorker =>
      (false, SyncClientState.mk st.hasLoop false)
    | ConnectAttempt.exceedsCallerWait => (false, st)
    | ConnectAttempt.raisesOther => (false, st)

/-- C3 is right about the intent and the code is wrong: in the Connected
state, when the background operation raises an unexpected internal error,
perform calls self.disconnect() while still holding the non-reentrant
session lock (bluetti_lib/client.py line 108 inside the with block opened at
line 95); disconnect immediately re-acquires that same lock (line 83), so
the call blocks forever: the disconnect never completes and None is never
returned to the caller. -/
theorem C3_perform_unexpected_error_deadlocks (c : Command) :
    (BluettiClient.perform (ClientState.mk true true false) c
      TransactionOutcome.unexpectedError).1 = SyncCall.deadlock := rfl

/-- C6 counterexample: when the underlying connection attempt exceeds the
caller timeout inside future.result, BluettiClient.connect does not return
false: the TimeoutError propagates to the caller, because no try/except
surrounds future.result at bluetti_lib/client.py line 79. -/
theorem C6_counterexample :
    (BluettiClient.connect (ClientState.mk false false false)
      ConnectAttempt.exceedsCallerWait).1 = SyncCall.raises ∧
    (BluettiClient.connect (ClientState.mk false false false)
      ConnectAttempt.exceedsCallerWait).1 ≠ SyncCall.returns false :=
  ⟨rfl, by decide⟩

/-- C6 (amended): SyncBluettiClient.connect returns false on every failure
mode of the attempt and leaves connected false; BluettiClient.connect
returns false only when the attempt fails inside the worker with an
exception type _connect catches, while a caller-side future.result timeout
or an uncaught worker exception raises to the caller instead of returning
false. In every failure mode of either facade is_connected stays false, so
the session is left Disconnected. -/
theorem C6_connect_failure_modes :
    (∀ (st : SyncClientState) (a : ConnectAttempt), st.connected = false →
      a ≠ ConnectAttempt.success →
      (SyncBluettiClient.connect st a).1 = false ∧
      (SyncBluettiClient.connect st a).2.connected = false) ∧
    (∀ st : ClientState, st.lockHeld = false → st.is_connected = false →
      BluettiClient.connect st ConnectAttempt.failsInWorker =
        (SyncCall.returns false, ClientState.mk false true false) ∧
      (BluettiClient.connect st ConnectAttempt.exceedsCallerWait).1 =
        SyncCall.raises ∧
      (BluettiClient.connect st
        ConnectAttempt.exceedsCallerWait).2.is_connected = false ∧
      (BluettiClient.connect st ConnectAttempt.raisesOther).1 =
        SyncCall.raises) := by
  constructor
  · intro st a hc ha
    obtain ⟨hl, co⟩ := st
    simp only at hc
    subst hc
    cases hl <;> cases a <;>
      first
      | exact absurd rfl ha
      | exact ⟨rfl, rfl⟩
  · intro st hl hc
    obtain ⟨c1, c2, c3⟩ := st
    simp only at hl hc
    subst hl
    subst hc
    exact ⟨rfl, rfl, rfl, rfl⟩

/-- C6 witness: the failure modes evaluated at the Disconnected states of
both facades. -/
theorem C6_connect_failure_modes_witness :
    ((SyncBluettiClient.connect (SyncClientState.mk true false)
        ConnectAttempt.exceedsCallerWait).1 = false ∧
      (SyncBluettiClient.connect (SyncClientState.mk true false)
        ConnectAttempt.exceedsCallerWait).2.connected = false) ∧
    (BluettiClient.connect (ClientState.mk false true false)
        ConnectAttempt.failsInWorker =
      (SyncCall.returns false, ClientState.mk false true false)) :=
  ⟨C6_connect_failure_modes.1 (SyncClientState.mk true false)
      ConnectAttempt.exceedsCallerWait rfl (by decide),
    (C6_connect_failure_modes.2 (ClientState.mk false true false) rfl rfl).1⟩

/-- The field map of the standalone client (bluetti_standalone.py
line 123): a Python dict from field names to numeric values, in insertion
order; Python float results of division by 10 and 100 are represented
exactly as rationals. -/
abbrev FieldMap := List (String × ℚ)

/-- Python dict lookup on the field map. -/
def FieldMap.lookup : FieldMap → String → Option ℚ
  | [], _ => none
  | (k, v) :: rest, key =>
    if k = key then some v else FieldMap.lookup rest key

/-- Python dict membership on the field map. -/
def FieldMap.containsKey (m : FieldMap) (key : String) : Bool :=
  (FieldMap.lookup m key).isSome

/-- Python dict assignment on the field map: update in place when the key is
present, append at the end otherwise. -/
def FieldMap.insert : FieldMap → String → ℚ → FieldMap
  | [], key, v => [(key, v)]
  | (k, w) :: rest, key, v =>
    if k = key then (k, v) :: rest else (k, w) :: FieldMap.insert rest key v

/-- State of the StandaloneBluettiClient (bluetti_standalone.py
lines 99-123) visible to the embedded operations: the is_ready flag,
whether a BleakClient object exists, the response event flag and stored
response data of the notification handler, and the accumulated field map. -/
structure StandaloneState where
  is_ready : Bool
  hasClient : Bool
  response_event : Bool
  response_data : Option (List Nat)
  fields : FieldMap
deriving DecidableEq

/-- Outcome of the single write-then-wait transaction inside perform_command
(bluetti_standalone.py lines 175-194): a notification arrives before the
10 second wait elapses, the wait times out, or the write or wait raises and
the surrounding try/except returns None. -/
inductive CmdOutcome
  | response (d : List Nat)
  | timedOut
  | raised
deriving DecidableEq

/-- StandaloneBluettiClient.perform_command (bluetti_standalone.py
lines 170-194): fails fast with None when not ready or without a client,
otherwise clears the previous response event and data, writes the encoded
command, and waits for a notification. Returns the raw response option, the
new state, and the list of frames written to the transport. -/
def perform_command (st : StandaloneState) (c : Command) (o : CmdOutcome) :
    Option (List Nat) × StandaloneState × List (List Nat) :=
  if !st.is_ready || !st.hasClient then (none, st, [])
  else
    match o with
    | CmdOutcome.response d =>
      (some d,
        StandaloneState.mk st.is_ready st.hasClient true (some d) st.fields,
        [c.encode])
    | CmdOutcome.timedOut =>
      (none,
        StandaloneState.mk st.is_ready st.hasClient false none st.fields,
        [c.encode])
    | CmdOutcome.raised =>
      (none,
        StandaloneState.mk st.is_ready st.hasClient false none st.fields,
        [c.encode])

/-- StandaloneBluettiClient.send_command (bluetti_standalone.py
lines 253-265): fails fast with false when not ready, otherwise builds a
WriteSingleRegister command, runs perform_command, and reports whether a
response arrived; exceptions collapse to false. -/
def send_command (st : StandaloneState) (register value : Nat)
    (o : CmdOutcome) : Bool × StandaloneState :=
  if !st.is_ready then (false, st)
  else
    match perform_command st (Command.write register value) o with
    | (r, st2, _) => (r.isSome, st2)

/-- C7: a perform call outside the Connected state fails immediately: it
returns None, writes no bytes to the transport, and leaves the session
state unchanged - both in the BluettiClient facade (bluetti_lib/client.py
lines 94-98) and in the standalone perform_command (bluetti_standalone.py
lines 170-173). -/
theorem C7_perform_fail_fast :
    (∀ (st : ClientState) (c : Command) (o : TransactionOutcome),
      st.is_connected = false → st.lockHeld = false →
      BluettiClient.perform st c o = (SyncCall.returns none, st, [])) ∧
    (∀ (st : StandaloneState) (c : Command) (o : CmdOutcome),
      st.is_ready = false →
      perform_command st c o = (none, st, [])) := by
  constructor
  · intro st c o hc hl
    obtain ⟨c1, c2, c3⟩ := st
    simp only at hc hl
    subst hc
    subst hl
    rfl
  · intro st c o hr
    obtain ⟨r1, r2, r3, r4, r5⟩ := st
    simp only at hr
    subst hr
    rfl

/-- C7 witness: both fail-fast behaviours evaluated at concrete
disconnected states. -/
theorem C7_perform_fail_fast_witness :
    BluettiClient.perform (ClientState.mk false true false)
        (Command.read 10 40) TransactionOutcome.engineNone =
      (SyncCall.returns none, ClientState.mk false true false, []) ∧
    perform_command (StandaloneState.mk false true false none [])
        (Command.read 10 40) CmdOutcome.timedOut =
      (none, StandaloneState.mk false true false none [], []) :=
  ⟨C7_perform_fail_fast.1 (ClientState.mk false true false)
      (Command.read 10 40) TransactionOutcome.engineNone rfl rfl,
    C7_perform_fail_fast.2 (StandaloneState.mk false true false none [])
      (Command.read 10 40) CmdOutcome.timedOut rfl⟩

/-- C10: send_command never modifies the accumulated telemetry field map:
for every register and value and every outcome of the underlying
transaction, whether true or false is returned, the field map after the
call holds exactly the entries it held before. -/
theorem C10_send_command_preserves_fields
    (st : StandaloneState) (register value : Nat) (o : CmdOutcome) :
    (send_command st register value o).2.fields = st.fields := by
  obtain ⟨r1, r2, r3, r4, r5⟩ := st
  cases r1 <;> cases r2 <;> cases o <;> rfl

/-- helper: delivering a partition of a frame whose total length equals the
expected response size makes the accumulation loop cross the length
threshold exactly at the final chunk, with the full frame as its buffer, so
the result is determined by the full frame alone. -/
theorem performLoop_partition (c : Command) (t : Nat) (frame : List Nat)
    (ht : 1 ≤ t) :
    ∀ (parts : List (List Nat)) (buf : List Nat) (now : Nat),
      parts ≠ [] → (∀ q ∈ parts, q ≠ []) →
      buf ++ parts.flatten = frame →
      frame.length = c.response_size →
      performLoop c t (parts.map (fun q => (0, q))) buf now =
        (now,
          if is_valid_response frame then
            PerformResult.payload (parse_response frame)
          else PerformResult.invalid) := by
  intro parts
  induction parts with
  | nil =>
    intro buf now hne _ _ _
    exact absurd rfl hne
  | cons q rest ih =>
    intro buf now _ hq hjoin hsize
    simp only [List.map_cons, performLoop]
    rw [if_neg (by omega)]
    cases rest with
    | nil =>
      have hbq : buf ++ q = frame := by simpa using hjoin
      rw [hbq, if_pos (le_of_eq hsize.symm)]
      simp
    | cons r rs =>
      have hr : r ≠ [] := hq r (by simp)
      have hrlen : 1 ≤ ((r :: rs).flatten).length := by
        cases r with
        | nil => exact absurd rfl hr
        | cons x xs => simp [List.flatten_cons]
      have hflat : (q :: r :: rs).flatten = q ++ (r :: rs).flatten := by
        simp [List.flatten_cons]
      have hlen : (buf ++ q).length + ((r :: rs).flatten).length =
          frame.length := by
        rw [← hjoin, hflat]
        simp [List.length_append]
        omega
      rw [if_neg (by omega)]
      have hjoin2 : (buf ++ q) ++ (r :: rs).flatten = frame := by
        rw [List.append_assoc, ← hflat]
        exact hjoin
      have := ih (buf ++ q) (now + 0) (by simp)
        (fun p hp => hq p (by simp [hp])) hjoin2 hsize
      rw [this]
      simp

/-- C4 (amended, engine part): the accumulate-and-decode engine is
fragmentation invariant: a valid response frame of exactly the expected
size, delivered as any partition into non-empty chunks with gaps below the
timeout, always yields the same decoded result - the payload parse_response
of the full frame - independent of the chunk boundaries. -/
theorem C4_engine_fragmentation_invariant (c : Command) (t : Nat)
    (frame : List Nat) (parts : List (List Nat))
    (ht : 1 ≤ t) (hval : is_valid_response frame = true)
    (hjoin : parts.flatten = frame) (hq : ∀ q ∈ parts, q ≠ [])
    (hsize : frame.length = c.response_size) :
    runPerform c t (parts.map (fun q => (0, q))) =
      (0, PerformResult.payload (parse_response frame)) := by
  have h5 : 5 ≤ c.response_size := by
    cases c <;> simp [Command.response_size]
  have hparts : parts ≠ [] := by
    intro h
    subst h
    rw [← hjoin] at hsize
    simp at hsize
    omega
  have := performLoop_partition c t frame ht parts [] 0 hparts hq
    (by simpa using hjoin) hsize
  rw [runPerform, this, hval]
  simp

/-- C4 witness: the valid 7-byte read response delivered as the three
chunks 01 03 02 / 00 4D / 78 71 decodes to the payload of the full frame. -/
theorem C4_engine_fragmentation_invariant_witness :
    runPerform (Command.read 10 1) 10
        ([[1, 3, 2], [0, 77], [120, 113]].map (fun q => (0, q))) =
      (0, PerformResult.payload (parse_response validReadResp)) :=
  C4_engine_fragmentation_invariant (Command.read 10 1) 10 validReadResp
    [[1, 3, 2], [0, 77], [120, 113]] (by decide) (by decide) (by decide)
    (by decide) (by decide)

/-- C4 counterexample: the standalone single-notification engine is not
fragmentation invariant: the valid response frame delivered all at once
yields payload 00 4D, but the same bytes delivered as the two chunks take 4
and drop 4 leave only the final chunk in _response_data, which decodes to
the empty payload - a different result for the same concatenation of
chunks. -/
theorem C4_counterexample :
    validReadResp.take 4 ++ validReadResp.drop 4 = validReadResp ∧
    is_valid_response validReadResp = true ∧
    standalonePayloadOf (standaloneNotifyResult [validReadResp]) = [0, 77] ∧
    standalonePayloadOf (standaloneNotifyResult
      [validReadResp.take 4, validReadResp.drop 4]) = [] ∧
    ([0, 77] : List Nat) ≠ [] :=
  ⟨by decide, by decide, by decide, by decide, by decide⟩

/-- Big-endian u16 register values decoded from a payload, as produced by
struct.unpack with a big-endian u16 array format (bluetti_standalone.py
lines 275-276). -/
def regsOf : List Nat → List Nat
  | a :: b :: rest => (a * 256 + b) :: regsOf rest
  | _ => []

/-- The pack-data branch of _parse_data_segment for starting address 91
(bluetti_standalone.py lines 267-276 and 357-362): payloads shorter than
2 bytes yield no fields, an odd length makes struct.unpack raise inside the
try block and also yields no fields; otherwise, with at least 9 registers,
the four pack fields are produced in source assignment order, the voltages
divided by 10 and by 100. -/
def parsePackSegment (payload : List Nat) : List (String × ℚ) :=
  if payload.length < 2 ∨ payload.length % 2 = 1 then []
  else if 9 ≤ (regsOf payload).length then
    [("pack_num_max_bms", ((regsOf payload).getD 0 0 : ℚ)),
     ("current_pack_total_voltage", ((regsOf payload).getD 1 0 : ℚ) / 10),
     ("current_pack_voltage", ((regsOf payload).getD 7 0 : ℚ) / 100),
     ("current_pack_battery_percent", ((regsOf payload).getD 8 0 : ℚ))]
  else []

/-- The slot-namespaced field key built by the pack loop, pack_<idx> plus a
field name. -/
def packKey (idx : Nat) (sfx : String) : String :=
  "pack_" ++ toString idx ++ sfx

/-- One key-to-field mapping step of the pack polling loop
(bluetti_standalone.py lines 234-242): the three per-pack keys are stored
namespaced by the slot index, pack_num_max_bms is stored under its own
un-namespaced key only when not already present, and every other key is
dropped. -/
def packFieldStep (idx : Nat) (fs : FieldMap) (kv : String × ℚ) : FieldMap :=
  if kv.1 == "current_pack_total_voltage" then
    FieldMap.insert fs (packKey idx ("_total_voltage")) kv.2
  else if kv.1 == "current_pack_voltage" then
    FieldMap.insert fs (packKey idx ("_pack_voltage")) kv.2
  else if kv.1 == "current_pack_battery_percent" then
    FieldMap.insert fs (packKey idx ("_battery_percent")) kv.2
  else if kv.1 == "pack_num_max_bms" &&
      !(FieldMap.containsKey fs ("pack_num_max_bms")) then
    FieldMap.insert fs ("pack_num_max_bms") kv.2
  else fs

/-- One pack-slot iteration of poll_all_data (bluetti_standalone.py
lines 218-245): when the select write yields a truthy response, the pack
read is attempted; a truthy read response is parsed by parse_response
without CRC validation and a non-empty payload is folded into the field map
through packFieldStep; a falsy select or read response, a timeout, or an
exception leaves the map unchanged for this slot, and the loop always
proceeds to the next slot. -/
def packSlotUpdate (fs : FieldMap) (idx : Nat)
    (selectResp readResp : Option (List Nat)) : FieldMap :=
  if truthy selectResp then
    match readResp with
    | none => fs
    | some r =>
      if r.isEmpty then fs
      else if (parse_response r).isEmpty then fs
      else (parsePackSegment (parse_response r)).foldl (packFieldStep idx) fs
  else fs

/-- The pack polling loop of poll_all_data (bluetti_standalone.py
lines 218-245): slots 1 through 6 are attempted unconditionally and in
order, each with its own select response and read response. -/
def pollPacks (fs : FieldMap) (sel rd : Nat → Option (List Nat)) : FieldMap :=
  (List.range' 1 6).foldl
    (fun m idx => packSlotUpdate m idx (sel idx) (rd idx)) fs

/-- helper: looking up the key just inserted yields the inserted value. -/
theorem FieldMap.lookup_insert_self (m : FieldMap) (k : String) (v : ℚ) :
    FieldMap.lookup (FieldMap.insert m k v) k = some v := by
  induction m with
  | nil => simp [FieldMap.insert, FieldMap.lookup]
  | cons hd rest ih =>
    obtain ⟨k2, w⟩ := hd
    by_cases h : k2 = k
    · subst h
      simp [FieldMap.insert, FieldMap.lookup]
    · simp [FieldMap.insert, FieldMap.lookup, h, ih]

/-- helper: inserting one key leaves the lookup of any other key unchanged. -/
theorem FieldMap.lookup_insert_ne (m : FieldMap) (k k2 : String) (v : ℚ)
    (h : k ≠ k2) :
    FieldMap.lookup (FieldMap.insert m k v) k2 = FieldMap.lookup m k2 := by
  induction m with
  | nil => simp [FieldMap.insert, FieldMap.lookup, h]
  | cons hd rest ih =>
    obtain ⟨k3, w⟩ := hd
    by_cases h3 : k3 = k
    · subst h3
      simp [FieldMap.insert, FieldMap.lookup, h]
    · simp [FieldMap.insert, FieldMap.lookup, h3, ih]

/-- helper: a packFieldStep never touches a key outside the four keys it can
insert for its slot. -/
theorem packFieldStep_lookup_other (idx : Nat) (fs : FieldMap)
    (kv : String × ℚ) (key : String)
    (h1 : key ≠ packKey idx ("_total_voltage"))
    (h2 : key ≠ packKey idx ("_pack_voltage"))
    (h3 : key ≠ packKey idx ("_battery_percent"))
    (h4 : key ≠ "pack_num_max_bms") :
    FieldMap.lookup (packFieldStep idx fs kv) key =
      FieldMap.lookup fs key := by
  unfold packFieldStep
  split
  · exact FieldMap.lookup_insert_ne fs _ key kv.2 (Ne.symm h1)
  · split
    · exact FieldMap.lookup_insert_ne fs _ key kv.2 (Ne.symm h2)
    · split
      · exact FieldMap.lookup_insert_ne fs _ key kv.2 (Ne.symm h3)
      · split
        · exact FieldMap.lookup_insert_ne fs _ key kv.2 (Ne.symm h4)
        · rfl

/-- helper: folding any parsed segment through the steps of one slot never
touches a key outside the four keys of that slot. -/
theorem packFold_lookup_other (idx : Nat) (key : String)
    (h1 : key ≠ packKey idx ("_total_voltage"))
    (h2 : key ≠ packKey idx ("_pack_voltage"))
    (h3 : key ≠ packKey idx ("_battery_percent"))
    (h4 : key ≠ "pack_num_max_bms") :
    ∀ (l : List (String × ℚ)) (fs : FieldMap),
      FieldMap.lookup (l.foldl (packFieldStep idx) fs) key =
        FieldMap.lookup fs key := by
  intro l
  induction l with
  | nil => intro fs; rfl
  | cons kv rest ih =>
    intro fs
    simp only [List.foldl_cons]
    rw [ih, packFieldStep_lookup_other idx fs kv key h1 h2 h3 h4]

/-- helper: a whole slot iteration never touches a key outside the four keys
of that slot, whatever its select and read responses are. -/
theorem packSlotUpdate_lookup_other (idx : Nat) (fs : FieldMap)
    (s r : Option (List Nat)) (key : String)
    (h1 : key ≠ packKey idx ("_total_voltage"))
    (h2 : key ≠ packKey idx ("_pack_voltage"))
    (h3 : key ≠ packKey idx ("_battery_percent"))
    (h4 : key ≠ "pack_num_max_bms") :
    FieldMap.lookup (packSlotUpdate fs idx s r) key =
      FieldMap.lookup fs key := by
  unfold packSlotUpdate
  by_cases ht : truthy s = true
  · rw [if_pos ht]
    match r with
    | none => rfl
    | some rr =>
      show FieldMap.lookup
          (if rr.isEmpty = true then fs
            else if (parse_response rr).isEmpty = true then fs
            else List.foldl (packFieldStep idx) fs
              (parsePackSegment (parse_response rr)))
          key = FieldMap.lookup fs key
      by_cases he : rr.isEmpty = true
      · rw [if_pos he]
      · rw [if_neg he]
        by_cases hp : (parse_response rr).isEmpty = true
        · rw [if_pos hp]
        · rw [if_neg hp]
          exact packFold_lookup_other idx key h1 h2 h3 h4 _ fs
  · rw [if_neg ht]

/-- A 23-byte pack-data response frame (header 01 03 12, 18 payload bytes,
junk CRC field 00 00): registers 5, 500, 0, 0, 0, 0, 0, 300, 80, so a
max-bms count of 5, total voltage 50, pack voltage 3, battery percent 80. -/
def pack4Frame : List Nat :=
  [1, 3, 18, 0, 5, 1, 244, 0, 0, 0, 0, 0, 0, 0, 0, 0, 0, 1, 44, 0, 80, 0, 0]

/-- A second pack-data response frame: registers 7, 480, 0, 0, 0, 0, 0, 310,
60, so a max-bms count of 7 and battery percent 60. -/
def pack2Frame : List Nat :=
  [1, 3, 18, 0, 7, 1, 224, 0, 0, 0, 0, 0, 0, 0, 0, 0, 0, 1, 54, 0, 60, 0, 0]

/-- helper: a slot iteration that receives the concrete pack frame stores
battery percent 80 under the slot-4 namespaced key, whatever the field map
already holds. -/
theorem packSlotUpdate_slot4 (fs : FieldMap) (s : Option (List Nat))
    (hs : truthy s = true) :
    FieldMap.lookup (packSlotUpdate fs 4 s (some pack4Frame))
      (packKey 4 ("_battery_percent")) = some 80 := by
  have hstep4 : ∀ m : FieldMap,
      packFieldStep 4 m ("current_pack_battery_percent", ((80 : ℕ) : ℚ)) =
        FieldMap.insert m (packKey 4 ("_battery_percent")) ((80 : ℕ) : ℚ) := by
    intro m
    rfl
  have hpr : parse_response pack4Frame =
      [0, 5, 1, 244, 0, 0, 0, 0, 0, 0, 0, 0, 0, 0, 1, 44, 0, 80] := by decide
  have hreg : regsOf [0, 5, 1, 244, 0, 0, 0, 0, 0, 0, 0, 0, 0, 0, 1, 44, 0, 80]
      = [5, 500, 0, 0, 0, 0, 0, 300, 80] := by decide
  have hseg : parsePackSegment (parse_response pack4Frame) =
      [("pack_num_max_bms", ((5 : ℕ) : ℚ)),
       ("current_pack_total_voltage", ((500 : ℕ) : ℚ) / 10),
       ("current_pack_voltage", ((300 : ℕ) : ℚ) / 100),
       ("current_pack_battery_percent", ((80 : ℕ) : ℚ))] := by
    rw [hpr]
    norm_num [parsePackSegment, hreg]
  unfold packSlotUpdate
  rw [hs]
  show FieldMap.lookup
      ((parsePackSegment (parse_response pack4Frame)).foldl
        (packFieldStep 4) fs)
      (packKey 4 ("_battery_percent")) = some 80
  rw [hseg]
  simp only [List.foldl_cons, List.foldl_nil]
  rw [hstep4]
  rw [FieldMap.lookup_insert_self]
  norm_num

/-- C8 (amended): pack-slot resilience holds - a slot whose select write or
read fails leaves the field map unchanged for that slot and the loop still
attempts every other slot - and the three per-pack telemetry fields of a
successful slot read are namespaced by slot index; but pack_num_max_bms is
stored un-namespaced with first-slot-wins. Concretely: whatever slots 1, 2,
5 and 6 return, with slot 3 failing its select and slot 4 delivering the
concrete pack frame, the final map holds pack_4_battery_percent = 80. -/
theorem C8_pack_slots :
    (∀ (fs : FieldMap) (idx : Nat) (s r : Option (List Nat)),
      truthy s = false → packSlotUpdate fs idx s r = fs) ∧
    (∀ (fs : FieldMap) (sel rd : Nat → Option (List Nat)),
      truthy (sel 3) = false → truthy (sel 4) = true →
      rd 4 = some pack4Frame →
      FieldMap.lookup (pollPacks fs sel rd)
        (packKey 4 ("_battery_percent")) = some 80) := by
  constructor
  · intro fs idx s r hs
    unfold packSlotUpdate
    rw [hs]
    rfl
  · intro fs sel rd h3 h4 hr4
    show FieldMap.lookup
        (packSlotUpdate (packSlotUpdate (packSlotUpdate (packSlotUpdate
          (packSlotUpdate (packSlotUpdate fs 1 (sel 1) (rd 1))
            2 (sel 2) (rd 2)) 3 (sel 3) (rd 3)) 4 (sel 4) (rd 4))
          5 (sel 5) (rd 5)) 6 (sel 6) (rd 6))
        (packKey 4 ("_battery_percent")) = some 80
    rw [packSlotUpdate_lookup_other 6 _ (sel 6) (rd 6) _
      (by decide) (by decide) (by decide) (by decide)]
    rw [packSlotUpdate_lookup_other 5 _ (sel 5) (rd 5) _
      (by decide) (by decide) (by decide) (by decide)]
    rw [hr4]
    exact packSlotUpdate_slot4 _ (sel 4) h4

/-- Concrete select responses: only slot 4 gets a truthy select echo. -/
def c8sel : Nat → Option (List Nat) := fun n =>
  if n = 4 then some [1, 6, 11, 190, 0, 4, 0, 0] else none

/-- Concrete read responses: only slot 4 gets the concrete pack frame. -/
def c8rd : Nat → Option (List Nat) := fun n =>
  if n = 4 then some pack4Frame else none

/-- C8 witness: a failing slot leaves the map unchanged, and the scenario
with slot 3 failing and slot 4 succeeding stores the namespaced battery
percent. -/
theorem C8_pack_slots_witness :
    packSlotUpdate [] 3 none none = [] ∧
    FieldMap.lookup (pollPacks [] c8sel c8rd)
      (packKey 4 ("_battery_percent")) = some 80 :=
  ⟨C8_pack_slots.1 [] 3 none none rfl,
    C8_pack_slots.2 [] c8sel c8rd (by decide) (by decide) (by decide)⟩

/-- Select responses for the counterexample: slots 1 and 2 succeed. -/
def cxSel : Nat → Option (List Nat) := fun n =>
  if n ≤ 2 then some [1, 6, 11, 190, 0, 1, 0, 0] else none

/-- Read responses for the counterexample: slot 1 delivers the frame with
max-bms 5 and slot 2 the frame with max-bms 7. -/
def cxRd : Nat → Option (List Nat) := fun n =>
  if n = 1 then some pack4Frame
  else if n = 2 then some pack2Frame
  else none

/-- C8 counterexample: with the reads of slots 1 and 2 both succeeding, the
pack_num_max_bms field obtained from those successful slot reads appears in
the final map un-namespaced, its slot-namespaced forms are absent, and the
value delivered by slot 2 (7) is lost to the value of slot 1 (5) under the
single shared key - fields from different slots do collide, against the
claim that every field of a successful slot read appears namespaced by its
slot index. -/
theorem C8_counterexample :
    FieldMap.lookup (pollPacks [] cxSel cxRd) ("pack_num_max_bms") =
      some ((5 : ℕ) : ℚ) ∧
    FieldMap.lookup (pollPacks [] cxSel cxRd) ("pack_1_pack_num_max_bms") =
      none ∧
    FieldMap.lookup (pollPacks [] cxSel cxRd) ("pack_2_pack_num_max_bms") =
      none ∧
    FieldMap.lookup (pollPacks [] cxSel cxRd) ("pack_num_max_bms") ≠
      some ((7 : ℕ) : ℚ) :=
  ⟨by decide, by decide, by decide, by decide⟩
